import Mathlib

/-!
Verification of the `mqlog` buffered MQTT log handler
(`src/mqlog/__init__.py`) against its natural-language specification.

The module is embedded shallowly:
* `LogRecord` models the fields of a `logging.LogRecord` that the handler
  reads (`levelno`, and the fields rendered by the default format string
  `"%(levelname)s:%(name)s:%(message)s"`).
* `MqttHandler` models the handler's mutable state (`buffer`,
  `will_flush`, the stored configuration and the `formatter` attribute
  inherited from `logging.Handler`, which is `None` after construction).
* The async environment is made explicit: `client.publish` either
  completes or raises, which `_flush` receives as a `PublishResult`
  argument, and `emit` calls that interleave with the `await` of the
  publish are passed to `_flush` as the list `during` of lines they
  append.  Side effects of one `_flush` call (publish invocations and
  calls to the diagnostic logger `logging.getLogger("mqlog").error`) are
  returned in a `FlushResult` record.
-/

namespace Mqlog

/-- The part of a `logging.LogRecord` that the handler reads: the numeric
severity `levelno`, and the attributes substituted by the default format
string (`levelname`, `name`, and the fully expanded `message`). -/
structure LogRecord where
  levelno : Int
  levelname : String
  name : String
  message : String
  deriving Repr, DecidableEq

/-- `_default_formatter = logging.Formatter(logging._default_fmt)` with
`_default_fmt = "%(levelname)s:%(name)s:%(message)s"`: renders a record as
`levelname:name:message`. -/
def defaultFormat (r : LogRecord) : String :=
  r.levelname ++ ":" ++ r.name ++ ":" ++ r.message

/-- A formatter, as stored in the handler's `formatter` attribute.  A
Python formatter's `format(record)` may raise, which we model with
`Except`: `.error e` is a raised exception `e`. -/
def Formatter : Type := LogRecord → Except String String

/-- State of an `MqttHandler` instance.  `client` is an opaque handle to
the external MQTT client; `buffer` is `self.buffer` (a list of already
formatted lines, FIFO); `will_flush` is whether the `asyncio.Event`
`self.will_flush` is set; `formatter` is the `formatter` attribute set by
`logging.Handler` (`None` after `__init__`). -/
structure MqttHandler where
  client : Nat
  topic : String
  qos : Int
  level : Int
  flush_level : Int
  capacity : Int
  buffer : List String
  will_flush : Bool
  formatter : Option Formatter

/-- `MqttHandler.__init__(client, topic, qos, level, flush_level,
capacity)`.  Python defaults: `qos=0`, `level=logging.NOTSET (0)`,
`flush_level=logging.ERROR (40)`, `capacity=10`.  Raises `ValueError`
when `flush_level < level`; otherwise stores the configuration with an
empty buffer, an unset event, and no formatter. -/
def MqttHandler.init (client : Nat) (topic : String) (qos level flush_level capacity : Int) :
    Except String MqttHandler :=
  if flush_level < level then
    .error "Flush level must be greater than or equal to level"
  else
    .ok { client := client, topic := topic, qos := qos, level := level,
          flush_level := flush_level, capacity := capacity,
          buffer := [], will_flush := false, formatter := none }

/-- `MqttHandler.format`: `fmt = self.formatter or _default_formatter;
return fmt.format(record)`.  The default formatter's substitution of
plain string attributes is total. -/
def MqttHandler.format (h : MqttHandler) (r : LogRecord) : Except String String :=
  match h.formatter with
  | some f => f r
  | none => .ok (defaultFormat r)

/-- `MqttHandler._should_flush`: `len(self.buffer) >= self.capacity or
record.levelno >= self.flush_level`. -/
def MqttHandler.should_flush (h : MqttHandler) (r : LogRecord) : Bool :=
  decide ((h.buffer.length : Int) ≥ h.capacity) || decide (r.levelno ≥ h.flush_level)

/-- `MqttHandler.emit`: `self.buffer.append(self.format(record))`, then
`if self._should_flush(record): self.will_flush.set()`.  An exception
raised by `self.format` propagates out of `emit` (there is no
`try`/`except` in `emit`), modelled by the `Except`. -/
def MqttHandler.emit (h : MqttHandler) (r : LogRecord) : Except String MqttHandler :=
  match h.format r with
  | .error e => .error e
  | .ok line =>
    let h1 : MqttHandler := { h with buffer := h.buffer ++ [line] }
    if h1.should_flush r then .ok { h1 with will_flush := true } else .ok h1

/-- `emit` folded over a list of records, stopping at the first raised
exception. -/
def MqttHandler.emitAll (h : MqttHandler) (rs : List LogRecord) : Except String MqttHandler :=
  match rs with
  | [] => .ok h
  | r :: rest =>
    match h.emit r with
    | .error e => .error e
    | .ok h1 => h1.emitAll rest

/-- Outcome of the `await self.client.publish(...)` call: it either
completes normally or raises an exception. -/
inductive PublishResult where
  | ok
  | fail
  deriving Repr, DecidableEq

/-- Observable result of one `_flush` call: the new handler state, the
`client.publish(topic, payload, qos)` invocations made (in order), and
whether the diagnostic logger `logging.getLogger("mqlog").error` was
called. -/
structure FlushResult where
  state : MqttHandler
  publishCalls : List (String × String × Int)
  loggedError : Bool

/-- `MqttHandler._flush`:

```
if self.buffer:
    try:
        msg = "\n".join([line for line in self.buffer])
        await self.client.publish(self.topic, msg, qos=self.qos)
        self.buffer.clear()
    except Exception as e:
        self._logger.error(f"Failed to publish logs via MQTT: {e}")
    self.will_flush.clear()
```

`res` is the outcome of the `await client.publish` and `during` is the
list of lines appended by `emit` calls that the event loop interleaves
during that `await` (the only suspension point of `_flush`).  The join is
computed before the `await`, so the payload covers only the lines present
at call time.  On success `self.buffer.clear()` empties the whole list —
including the lines of `during` appended while the publish was in
flight.  On failure the `except` skips the clear, so the buffer keeps the
failed batch followed by `during`.  In both cases `will_flush.clear()`
runs; when the buffer is empty the entire body, including that clear, is
skipped (and there is no `await`, so `during` cannot occur). -/
def MqttHandler.flush (h : MqttHandler) (res : PublishResult) (during : List String) :
    FlushResult :=
  if h.buffer.isEmpty then
    { state := h, publishCalls := [], loggedError := false }
  else
    let msg := String.intercalate "\n" h.buffer
    match res with
    | .ok =>
      { state := { h with buffer := [], will_flush := false },
        publishCalls := [(h.topic, msg, h.qos)],
        loggedError := false }
    | .fail =>
      { state := { h with buffer := h.buffer ++ during, will_flush := false },
        publishCalls := [(h.topic, msg, h.qos)],
        loggedError := true }

/-! ### Helper lemmas -/

/-- Unfolding of `_should_flush`. -/
theorem MqttHandler.should_flush_eq (h : MqttHandler) (r : LogRecord) :
    h.should_flush r
      = (decide ((h.buffer.length : Int) ≥ h.capacity)
          || decide (r.levelno ≥ h.flush_level)) := rfl

/-- Characterisation of `emit` when formatting succeeds: the line is
appended at the end of the buffer and the event ends set exactly when
`_should_flush` (evaluated after the append) holds or it was already
set. -/
theorem MqttHandler.emit_ok_eq {h : MqttHandler} {r : LogRecord} {line : String}
    (hf : h.format r = .ok line) :
    h.emit r = .ok { h with
      buffer := h.buffer ++ [line],
      will_flush :=
        ((decide (((h.buffer ++ [line]).length : Int) ≥ h.capacity)
          || decide (r.levelno ≥ h.flush_level)) || h.will_flush) } := by
  unfold MqttHandler.emit
  rw [hf]
  simp only [MqttHandler.should_flush]
  cases hc : (decide (((h.buffer ++ [line]).length : Int) ≥ h.capacity)
      || decide (r.levelno ≥ h.flush_level)) with
  | false => simp [hc]
  | true => simp [hc]

/-- With no formatter configured, `emitAll` always succeeds and appends
the default-formatted lines in order, preserving the configuration. -/
theorem MqttHandler.emitAll_buffer {h : MqttHandler} (hf : h.formatter = none)
    (rs : List LogRecord) :
    ∃ h1, h.emitAll rs = .ok h1
      ∧ h1.buffer = h.buffer ++ rs.map defaultFormat
      ∧ h1.formatter = none ∧ h1.topic = h.topic ∧ h1.qos = h.qos
      ∧ h1.capacity = h.capacity ∧ h1.flush_level = h.flush_level := by
  induction rs generalizing h with
  | nil => exact ⟨h, rfl, by simp, hf, rfl, rfl, rfl, rfl⟩
  | cons r rest ih =>
    have hfmt : h.format r = .ok (defaultFormat r) := by
      simp [MqttHandler.format, hf]
    have hemit := MqttHandler.emit_ok_eq hfmt
    set h1 : MqttHandler := { h with
      buffer := h.buffer ++ [defaultFormat r],
      will_flush :=
        ((decide (((h.buffer ++ [defaultFormat r]).length : Int) ≥ h.capacity)
          || decide (r.levelno ≥ h.flush_level)) || h.will_flush) } with hh1
    obtain ⟨h2, hrun, hbuf, hfo, hto, hqo, hca, hfl⟩ := ih (h := h1) hf
    refine ⟨h2, ?_, ?_, hfo, hto, hqo, hca, hfl⟩
    · simp only [MqttHandler.emitAll, hemit, hrun]
    · simp [hbuf, hh1]

/-- Sub-threshold, sub-capacity runs of `emit` never set the event: the
inductive invariant behind the quiescence part of the spec. -/
theorem MqttHandler.emitAll_below {h : MqttHandler} {rs : List LogRecord}
    (hf : h.formatter = none) (hw : h.will_flush = false)
    (hlen : ((h.buffer.length : Int) + rs.length) < h.capacity)
    (hlev : ∀ r ∈ rs, r.levelno < h.flush_level) :
    ∃ h1, h.emitAll rs = .ok h1 ∧ h1.will_flush = false
      ∧ h1.buffer = h.buffer ++ rs.map defaultFormat := by
  induction rs generalizing h with
  | nil => exact ⟨h, rfl, hw, by simp⟩
  | cons r rest ih =>
    have hfmt : h.format r = .ok (defaultFormat r) := by
      simp [MqttHandler.format, hf]
    have hemit := MqttHandler.emit_ok_eq hfmt
    have hlen' : ((h.buffer.length : Int) + (rest.length : Int) + 1) < h.capacity := by
      have h0 := hlen
      simp only [List.length_cons] at h0
      push_cast at h0
      omega
    have hlen1 : ¬ (((h.buffer ++ [defaultFormat r]).length : Int) ≥ h.capacity) := by
      simp only [List.length_append, List.length_cons, List.length_nil]
      push_cast
      omega
    have hlev1 : ¬ (r.levelno ≥ h.flush_level) := by
      have := hlev r (by simp)
      omega
    set h1 : MqttHandler := { h with
      buffer := h.buffer ++ [defaultFormat r],
      will_flush :=
        ((decide (((h.buffer ++ [defaultFormat r]).length : Int) ≥ h.capacity)
          || decide (r.levelno ≥ h.flush_level)) || h.will_flush) } with hh1
    have hw1 : h1.will_flush = false := by
      rw [hh1]
      show ((decide (((h.buffer ++ [defaultFormat r]).length : Int) ≥ h.capacity)
          || decide (r.levelno ≥ h.flush_level)) || h.will_flush) = false
      rw [decide_eq_false hlen1, decide_eq_false hlev1, hw]
      rfl
    have hlen2 : ((h1.buffer.length : Int) + rest.length) < h1.capacity := by
      simp only [hh1, List.length_append, List.length_cons, List.length_nil]
      push_cast
      omega
    have hlev2 : ∀ x ∈ rest, x.levelno < h1.flush_level := by
      intro x hx
      exact hlev x (by simp [hx])
    obtain ⟨h2, hrun, hw2, hbuf2⟩ := ih (h := h1) hf hw1 hlen2 hlev2
    refine ⟨h2, ?_, hw2, ?_⟩
    · simp only [MqttHandler.emitAll, hemit, hrun]
    · simp [hbuf2, hh1]

/-- `_flush` on a non-empty buffer with a successful publish: one publish
of the joined buffer, then `buffer.clear()` and `will_flush.clear()`. -/
theorem MqttHandler.flush_ok_def {h : MqttHandler} (hne : h.buffer ≠ [])
    (during : List String) :
    h.flush .ok during =
      { state := { h with buffer := [], will_flush := false },
        publishCalls := [(h.topic, String.intercalate "\n" h.buffer, h.qos)],
        loggedError := false } := by
  have he : h.buffer.isEmpty = false := by
    cases hb : h.buffer with
    | nil => exact absurd hb hne
    | cons a l => rfl
  simp [MqttHandler.flush, he]

/-- `_flush` on a non-empty buffer with a failing publish: the publish is
attempted once, the exception is caught and logged, the buffer keeps the
batch plus the lines appended during the `await`, and the event is
cleared. -/
theorem MqttHandler.flush_fail_def {h : MqttHandler} (hne : h.buffer ≠ [])
    (during : List String) :
    h.flush .fail during =
      { state := { h with buffer := h.buffer ++ during, will_flush := false },
        publishCalls := [(h.topic, String.intercalate "\n" h.buffer, h.qos)],
        loggedError := true } := by
  have he : h.buffer.isEmpty = false := by
    cases hb : h.buffer with
    | nil => exact absurd hb hne
    | cons a l => rfl
  simp [MqttHandler.flush, he]

/-- `_flush` on an empty buffer skips the whole body: no publish, no log,
no state change (in particular `will_flush` is not cleared). -/
theorem MqttHandler.flush_empty_def {h : MqttHandler} (he : h.buffer = [])
    (res : PublishResult) (during : List String) :
    h.flush res during = { state := h, publishCalls := [], loggedError := false } := by
  simp [MqttHandler.flush, he]

/-! ### Concrete states used by witnesses and counterexamples -/

/-- A fresh handler as produced by `MqttHandler(client, "test_topic")`
with the Python defaults `qos=0`, `level=logging.NOTSET (0)`,
`flush_level=logging.ERROR (40)`, `capacity=10`. -/
def sampleHandler : MqttHandler :=
  { client := 0, topic := "test_topic", qos := 0, level := 0, flush_level := 40,
    capacity := 10, buffer := [], will_flush := false, formatter := none }

/-- An INFO-level record like the ones in the repository's tests. -/
def rInfo : LogRecord :=
  { levelno := 20, levelname := "INFO", name := "test", message := "Test message 1" }

/-- An ERROR-level record. -/
def rErr : LogRecord :=
  { levelno := 40, levelname := "ERROR", name := "test", message := "Test message 2" }

/-- The sample handler with one buffered line and the event set, as after
one `emit` of an ERROR record. -/
def sampleLoaded : MqttHandler :=
  { sampleHandler with buffer := ["a"], will_flush := true }

/-- The sample handler with an empty buffer but the event set. -/
def sampleEmptyTriggered : MqttHandler :=
  { sampleHandler with buffer := [], will_flush := true }

/-- A formatter that raises on every record, such as
`logging.Formatter("%(missing)s")`. -/
def failingFormatter : Formatter := fun _ => .error "KeyError"

/-- The sample handler with the always-raising formatter configured via
`setFormatter`. -/
def sampleBadFmt : MqttHandler :=
  { sampleHandler with formatter := some failingFormatter }

/-! ### Claims -/

/-- C1: for every emitted record, `emit` appends the record's formatted
line to the end of the buffer and sets the trigger if and only if, after
the append, the buffer length is `>= capacity` or the record's severity
is `>= flush_level`; when neither condition holds the trigger is
unchanged, and for every sequence of emits each with severity below
`flush_level` and total count below `capacity` (from a fresh state) the
trigger stays unset. -/
theorem C1_emit_trigger_contract :
    (∀ (h : MqttHandler) (r : LogRecord) (line : String), h.format r = .ok line →
      ∃ h1, h.emit r = .ok h1
        ∧ h1.buffer = h.buffer ++ [line]
        ∧ (h1.will_flush = true ↔
            ((h1.buffer.length : Int) ≥ h.capacity ∨ r.levelno ≥ h.flush_level
              ∨ h.will_flush = true))
        ∧ (¬ ((h1.buffer.length : Int) ≥ h.capacity ∨ r.levelno ≥ h.flush_level) →
            h1.will_flush = h.will_flush)) ∧
    (∀ (h : MqttHandler) (rs : List LogRecord),
      h.formatter = none → h.buffer = [] → h.will_flush = false →
      ((rs.length : Int) < h.capacity) →
      (∀ r ∈ rs, r.levelno < h.flush_level) →
      ∃ h1, h.emitAll rs = .ok h1 ∧ h1.will_flush = false) := by
  constructor
  · intro h r line hf
    refine ⟨_, MqttHandler.emit_ok_eq hf, rfl, ?_, ?_⟩
    · show ((decide (((h.buffer ++ [line]).length : Int) ≥ h.capacity)
          || decide (r.levelno ≥ h.flush_level)) || h.will_flush) = true ↔ _
      simp only [Bool.or_eq_true, decide_eq_true_eq]
      tauto
    · intro hno
      rw [not_or] at hno
      show ((decide (((h.buffer ++ [line]).length : Int) ≥ h.capacity)
          || decide (r.levelno ≥ h.flush_level)) || h.will_flush) = h.will_flush
      rw [decide_eq_false hno.1, decide_eq_false hno.2]
      simp
  · intro h rs hf hb hw hlen hlev
    have hlen' : ((h.buffer.length : Int) + rs.length) < h.capacity := by
      rw [hb]
      simpa using hlen
    obtain ⟨h1, hrun, hw1, _⟩ := MqttHandler.emitAll_below hf hw hlen' hlev
    exact ⟨h1, hrun, hw1⟩

/-- Witness for C1: a fresh default handler, one INFO record for the
single-emit contract, and a two-record sub-threshold run for the
quiescence contract. -/
theorem C1_emit_trigger_contract_witness :
    (∃ h1, sampleHandler.emit rInfo = Except.ok h1
      ∧ h1.buffer = sampleHandler.buffer ++ [defaultFormat rInfo]
      ∧ (h1.will_flush = true ↔
          ((h1.buffer.length : Int) ≥ sampleHandler.capacity
            ∨ rInfo.levelno ≥ sampleHandler.flush_level
            ∨ sampleHandler.will_flush = true))
      ∧ (¬ ((h1.buffer.length : Int) ≥ sampleHandler.capacity
            ∨ rInfo.levelno ≥ sampleHandler.flush_level) →
          h1.will_flush = sampleHandler.will_flush))
    ∧ (∃ h2, sampleHandler.emitAll [rInfo, rInfo] = Except.ok h2
        ∧ h2.will_flush = false) :=
  ⟨C1_emit_trigger_contract.1 sampleHandler rInfo (defaultFormat rInfo) rfl,
   C1_emit_trigger_contract.2 sampleHandler [rInfo, rInfo] rfl rfl rfl
     (by decide) (by decide)⟩

/-- C2 counterexample: the claim says lines appended during the publish
call remain buffered for the next cycle regardless of the outcome.  On a
successful publish of the batch `["a"]` with `"b"` appended during the
`await`, the code's `self.buffer.clear()` (which runs after the publish,
not before) empties the whole list, so `"b"` is discarded unpublished. -/
theorem C2_counterexample :
    (sampleLoaded.flush PublishResult.ok ["b"]).state.buffer = []
    ∧ "b" ∉ (sampleLoaded.flush PublishResult.ok ["b"]).state.buffer :=
  ⟨rfl, by simp [MqttHandler.flush, sampleLoaded, sampleHandler]⟩

/-- C2 (amended): the flush does not snapshot-and-clear.  It publishes
the joined contents of the live buffer — the buffer is still full at the
moment `client.publish` is invoked — and clears the buffer only after the
publish returns successfully, discarding any lines appended during the
publish call; on failure the buffer retains the failed batch followed by
the lines appended during the call. -/
theorem C2_flush_live_buffer_amended :
    ∀ (h : MqttHandler) (res : PublishResult) (during : List String), h.buffer ≠ [] →
      (h.flush res during).publishCalls
        = [(h.topic, String.intercalate "\n" h.buffer, h.qos)]
      ∧ (res = .ok → (h.flush res during).state.buffer = [])
      ∧ (res = .fail → (h.flush res during).state.buffer = h.buffer ++ during) := by
  intro h res during hne
  cases res with
  | ok =>
    rw [MqttHandler.flush_ok_def hne]
    exact ⟨rfl, fun _ => rfl, fun hc => PublishResult.noConfusion hc⟩
  | fail =>
    rw [MqttHandler.flush_fail_def hne]
    exact ⟨rfl, fun hc => PublishResult.noConfusion hc, fun _ => rfl⟩

/-- Witness for the amended C2 at the one-line buffer with a failing
publish and one interleaved append. -/
theorem C2_flush_live_buffer_amended_witness :
    (sampleLoaded.flush PublishResult.fail ["b"]).publishCalls
      = [(sampleLoaded.topic, String.intercalate "\n" sampleLoaded.buffer,
          sampleLoaded.qos)]
    ∧ (PublishResult.fail = PublishResult.ok →
        (sampleLoaded.flush PublishResult.fail ["b"]).state.buffer = [])
    ∧ (PublishResult.fail = PublishResult.fail →
        (sampleLoaded.flush PublishResult.fail ["b"]).state.buffer
          = sampleLoaded.buffer ++ ["b"]) :=
  C2_flush_live_buffer_amended sampleLoaded PublishResult.fail ["b"] (by decide)

/-- C3 counterexample: the claim says a failed batch is dropped — after
the failed flush its lines are no longer buffered.  On the code, a failed
publish skips `self.buffer.clear()`, so the batch `["a"]` is still in the
buffer afterwards (and will be retried by the next flush). -/
theorem C3_counterexample :
    (sampleLoaded.flush PublishResult.fail []).state.buffer = ["a"]
    ∧ (sampleLoaded.flush PublishResult.fail []).loggedError = true :=
  ⟨rfl, rfl⟩

/-- C3 (amended): if `client.publish` raises during a flush, the error is
caught inside `_flush` (it is never re-raised — `_flush` totally returns
a result, so the loop does not terminate), reported through the
independent `logging.getLogger("mqlog")` logger, and the failed batch is
retained: the lines stay buffered (followed by any lines appended during
the attempt) and are retried; the next successful flush cycle publishes
the retained lines together with the newer ones. -/
theorem C3_publish_failure_retains :
    ∀ (h : MqttHandler) (during : List String), h.buffer ≠ [] →
      ∃ s, h.flush .fail during
            = { state := s,
                publishCalls := [(h.topic, String.intercalate "\n" h.buffer, h.qos)],
                loggedError := true }
        ∧ s.buffer = h.buffer ++ during
        ∧ s.will_flush = false
        ∧ (s.flush .ok []).publishCalls
            = [(h.topic, String.intercalate "\n" (h.buffer ++ during), h.qos)]
        ∧ (s.flush .ok []).state.buffer = [] := by
  intro h during hne
  have hne2 : ({ h with buffer := h.buffer ++ during, will_flush := false } : MqttHandler).buffer ≠ [] := by
    show h.buffer ++ during ≠ []
    simp only [ne_eq, List.append_eq_nil]
    rintro ⟨h1, -⟩
    exact hne h1
  refine ⟨{ h with buffer := h.buffer ++ during, will_flush := false },
    MqttHandler.flush_fail_def hne during, rfl, rfl, ?_, ?_⟩
  · rw [MqttHandler.flush_ok_def hne2]
  · rw [MqttHandler.flush_ok_def hne2]

/-- Witness for the amended C3 at the one-line buffer with one
interleaved append. -/
theorem C3_publish_failure_retains_witness :
    ∃ s, sampleLoaded.flush .fail ["b"]
          = { state := s,
              publishCalls := [(sampleLoaded.topic,
                String.intercalate "\n" sampleLoaded.buffer, sampleLoaded.qos)],
              loggedError := true }
      ∧ s.buffer = sampleLoaded.buffer ++ ["b"]
      ∧ s.will_flush = false
      ∧ (s.flush .ok []).publishCalls
          = [(sampleLoaded.topic,
              String.intercalate "\n" (sampleLoaded.buffer ++ ["b"]),
              sampleLoaded.qos)]
      ∧ (s.flush .ok []).state.buffer = [] :=
  C3_publish_failure_retains sampleLoaded ["b"] (by decide)

/-- C4: when the flush loop runs `_flush` on a non-empty buffer,
`client.publish` is invoked exactly once for that cycle (the
`publishCalls` list is the singleton of that invocation), with the
configured topic and qos and a payload equal to all buffered lines joined
by `"\n"`; an empty buffer causes no publish call.  Emission (FIFO)
order: starting from an empty buffer, a sequence of emits leaves the
formatted lines in emission order, so the published payload joins them in
that order. -/
theorem C4_publish_once_joined :
    (∀ (h : MqttHandler) (res : PublishResult) (during : List String),
      (h.buffer ≠ [] →
        (h.flush res during).publishCalls
          = [(h.topic, String.intercalate "\n" h.buffer, h.qos)])
      ∧ (h.buffer = [] → (h.flush res during).publishCalls = [])) ∧
    (∀ (h : MqttHandler) (rs : List LogRecord) (res : PublishResult),
      h.formatter = none → h.buffer = [] → rs ≠ [] →
      ∃ h1, h.emitAll rs = .ok h1
        ∧ (h1.flush res []).publishCalls
            = [(h.topic, String.intercalate "\n" (rs.map defaultFormat), h.qos)]) := by
  constructor
  · intro h res during
    constructor
    · intro hne
      cases res with
      | ok => rw [MqttHandler.flush_ok_def hne]
      | fail => rw [MqttHandler.flush_fail_def hne]
    · intro he
      rw [MqttHandler.flush_empty_def he]
  · intro h rs res hf hb hrs
    obtain ⟨h1, hrun, hbuf, _, hto, hqo, _, _⟩ := MqttHandler.emitAll_buffer hf rs
    rw [hb, List.nil_append] at hbuf
    have hne : h1.buffer ≠ [] := by
      rw [hbuf]
      simp only [ne_eq, List.map_eq_nil_iff]
      exact hrs
    refine ⟨h1, hrun, ?_⟩
    cases res with
    | ok => rw [MqttHandler.flush_ok_def hne, hbuf, hto, hqo]
    | fail => rw [MqttHandler.flush_fail_def hne, hbuf, hto, hqo]

/-- Witness for C4: the loaded one-line buffer for the single-cycle
contract and the fresh handler for the empty case, plus an INFO+ERROR
emission run for the FIFO payload. -/
theorem C4_publish_once_joined_witness :
    ((sampleLoaded.buffer ≠ [] →
        (sampleLoaded.flush PublishResult.ok []).publishCalls
          = [(sampleLoaded.topic, String.intercalate "\n" sampleLoaded.buffer,
              sampleLoaded.qos)])
      ∧ (sampleLoaded.buffer = [] →
          (sampleLoaded.flush PublishResult.ok []).publishCalls = []))
    ∧ (∃ h1, sampleHandler.emitAll [rInfo, rErr] = Except.ok h1
        ∧ (h1.flush PublishResult.ok []).publishCalls
            = [(sampleHandler.topic,
                String.intercalate "\n" ([rInfo, rErr].map defaultFormat),
                sampleHandler.qos)]) :=
  ⟨C4_publish_once_joined.1 sampleLoaded PublishResult.ok [],
   C4_publish_once_joined.2 sampleHandler [rInfo, rErr] PublishResult.ok
     rfl rfl (by decide)⟩

/-- C5: construction raises `ValueError` if and only if `flush_level` is
numerically below `level` (this happens in `__init__`, before any record
can be processed); for every `flush_level >= level` construction succeeds
and stores the given client, topic, qos, flush level and capacity, with
an empty buffer, an unset event, and no formatter. -/
theorem C5_init_contract :
    ∀ (client : Nat) (topic : String) (qos level flush_level capacity : Int),
      ((∃ e, MqttHandler.init client topic qos level flush_level capacity
          = .error e) ↔ flush_level < level)
      ∧ (level ≤ flush_level →
          MqttHandler.init client topic qos level flush_level capacity
            = .ok { client := client, topic := topic, qos := qos, level := level,
                    flush_level := flush_level, capacity := capacity,
                    buffer := [], will_flush := false, formatter := none }) := by
  intro client topic qos level flush_level capacity
  unfold MqttHandler.init
  by_cases hc : flush_level < level
  · rw [if_pos hc]
    refine ⟨⟨fun _ => hc, fun _ => ⟨_, rfl⟩⟩, fun hle => absurd hc (not_lt.mpr hle)⟩
  · rw [if_neg hc]
    refine ⟨⟨fun he => ?_, fun h1 => absurd h1 hc⟩, fun _ => rfl⟩
    obtain ⟨e, he⟩ := he
    exact Except.noConfusion he

/-- Witness for C5: default-like arguments succeed and store the
configuration; inverted levels fail. -/
theorem C5_init_contract_witness :
    MqttHandler.init 7 "t" 0 10 40 10
      = .ok { client := 7, topic := "t", qos := 0, level := 10, flush_level := 40,
              capacity := 10, buffer := [], will_flush := false, formatter := none }
    ∧ ∃ e, MqttHandler.init 7 "t" 0 50 40 10 = .error e :=
  ⟨(C5_init_contract 7 "t" 0 10 40 10).2 (by decide),
   (C5_init_contract 7 "t" 0 50 40 10).1.mpr (by decide)⟩

/-- C6: after a non-empty batch is drained and `client.publish` completes
successfully, the buffer is empty and the event is cleared in the state
`_flush` returns — the state in which `run` loops back to
`await self.will_flush.wait()`. -/
theorem C6_success_clears_before_wait :
    ∀ (h : MqttHandler) (during : List String), h.buffer ≠ [] →
      (h.flush .ok during).state.buffer = []
      ∧ (h.flush .ok during).state.will_flush = false := by
  intro h during hne
  rw [MqttHandler.flush_ok_def hne]
  exact ⟨rfl, rfl⟩

/-- Witness for C6 at the loaded one-line handler. -/
theorem C6_success_clears_before_wait_witness :
    (sampleLoaded.flush .ok []).state.buffer = []
    ∧ (sampleLoaded.flush .ok []).state.will_flush = false :=
  C6_success_clears_before_wait sampleLoaded [] (by decide)

/-- C7 counterexample: an iteration of the flush loop that wakes (the
event is set) with an empty buffer skips the whole `_flush` body —
including `will_flush.clear()`, which sits inside `if self.buffer:` — so
the iteration ends with the trigger still set, contradicting the claim
that every iteration, including the empty-batch one, ends with the
trigger unset. -/
theorem C7_counterexample :
    sampleEmptyTriggered.will_flush = true
    ∧ (sampleEmptyTriggered.flush PublishResult.ok []).state.will_flush = true :=
  ⟨rfl, rfl⟩

/-- C7 (amended): the trigger is cleared at the end of every flush
attempt whose captured batch is non-empty, whether the publish succeeds
or fails; when the buffer is empty the flush body is skipped entirely —
the state, trigger included, is unchanged — so an empty-batch iteration
entered with the trigger set returns to the wait with the trigger still
set rather than requiring a fresh set before the loop wakes again. -/
theorem C7_trigger_cleared_amended :
    ∀ (h : MqttHandler) (res : PublishResult) (during : List String),
      (h.buffer ≠ [] → (h.flush res during).state.will_flush = false)
      ∧ (h.buffer = [] → (h.flush res during).state = h) := by
  intro h res during
  constructor
  · intro hne
    cases res with
    | ok => rw [MqttHandler.flush_ok_def hne]
    | fail => rw [MqttHandler.flush_fail_def hne]
  · intro he
    rw [MqttHandler.flush_empty_def he]

/-- Witness for the amended C7: a failed flush of a non-empty buffer
clears the trigger; an empty-buffer flush leaves the state, and hence the
set trigger, untouched. -/
theorem C7_trigger_cleared_amended_witness :
    (sampleLoaded.flush PublishResult.fail []).state.will_flush = false
    ∧ (sampleEmptyTriggered.flush PublishResult.ok []).state
        = sampleEmptyTriggered :=
  ⟨(C7_trigger_cleared_amended sampleLoaded PublishResult.fail []).1 (by decide),
   (C7_trigger_cleared_amended sampleEmptyTriggered PublishResult.ok []).2 rfl⟩

/-- C8 counterexample: with a raising formatter configured (e.g.
`logging.Formatter("%(missing)s")`, whose `format` raises `KeyError`),
`emit` — which has no `try`/`except` around `self.format(record)` — lets
the exception escape to the caller, and no fallback line is appended. -/
theorem C8_counterexample :
    sampleBadFmt.emit rInfo = Except.error "KeyError" := rfl

/-- C8 (amended): `emit` does not catch formatting failures — an
exception raised by the configured formatter propagates out of `emit` to
the host application's logging call site, and nothing is appended to the
buffer in its place.  The only fallback is for a missing formatter: when
`formatter` is `None`, `format` uses the module-level
`_default_formatter`, so `emit` succeeds and appends the
default-formatted line. -/
theorem C8_emit_propagates_amended :
    (∀ (h : MqttHandler) (r : LogRecord) (e : String),
      h.format r = .error e → h.emit r = .error e)
    ∧ (∀ (h : MqttHandler) (r : LogRecord), h.formatter = none →
      ∃ h1, h.emit r = .ok h1 ∧ h1.buffer = h.buffer ++ [defaultFormat r]) := by
  constructor
  · intro h r e hf
    unfold MqttHandler.emit
    rw [hf]
  · intro h r hf
    have hfmt : h.format r = .ok (defaultFormat r) := by
      simp [MqttHandler.format, hf]
    exact ⟨_, MqttHandler.emit_ok_eq hfmt, rfl⟩

/-- Witness for the amended C8: the raising formatter propagates; the
fresh handler without a formatter appends the default-formatted line. -/
theorem C8_emit_propagates_amended_witness :
    sampleBadFmt.emit rErr = Except.error "KeyError"
    ∧ ∃ h1, sampleHandler.emit rErr = Except.ok h1
        ∧ h1.buffer = sampleHandler.buffer ++ [defaultFormat rErr] :=
  ⟨C8_emit_propagates_amended.1 sampleBadFmt rErr "KeyError" rfl,
   C8_emit_propagates_amended.2 sampleHandler rErr rfl⟩

/-- C9: `emit` always appends and never evicts — the line is appended
even when the buffer is already at or above capacity, since the trigger
test runs only after the append — and no core operation removes
individual buffered lines: `_flush` either leaves the old buffer content
as a prefix of the new buffer (failure, or the empty no-op) or clears the
buffer entirely, the latter only after a successful publish of a
non-empty batch. -/
theorem C9_append_only_no_eviction :
    (∀ (h : MqttHandler) (r : LogRecord) (line : String), h.format r = .ok line →
      ∃ h1, h.emit r = .ok h1 ∧ h1.buffer = h.buffer ++ [line])
    ∧ (∀ (h : MqttHandler) (res : PublishResult) (during : List String),
      ((h.flush res during).state.buffer = [] ∧ res = .ok ∧ h.buffer ≠ [])
      ∨ ∃ s, (h.flush res during).state.buffer = h.buffer ++ s) := by
  constructor
  · intro h r line hf
    exact ⟨_, MqttHandler.emit_ok_eq hf, rfl⟩
  · intro h res during
    by_cases he : h.buffer = []
    · right
      rw [MqttHandler.flush_empty_def he]
      exact ⟨[], (List.append_nil _).symm⟩
    · cases res with
      | ok =>
        left
        rw [MqttHandler.flush_ok_def he]
        exact ⟨rfl, rfl, he⟩
      | fail =>
        right
        rw [MqttHandler.flush_fail_def he]
        exact ⟨during, rfl⟩

/-- The sample handler shrunk to capacity 1 with two lines already
buffered: emitting here overshoots the capacity. -/
def sampleOver : MqttHandler :=
  { sampleHandler with capacity := 1, buffer := ["x", "y"], will_flush := true }

/-- Witness for C9: an append on a buffer already above capacity, and a
failed flush that keeps the old content as a prefix. -/
theorem C9_append_only_no_eviction_witness :
    (∃ h1, sampleOver.emit rInfo = Except.ok h1
      ∧ h1.buffer = sampleOver.buffer ++ [defaultFormat rInfo])
    ∧ (((sampleOver.flush PublishResult.fail []).state.buffer = []
          ∧ PublishResult.fail = PublishResult.ok ∧ sampleOver.buffer ≠ [])
        ∨ ∃ s, (sampleOver.flush PublishResult.fail []).state.buffer
            = sampleOver.buffer ++ s) :=
  ⟨C9_append_only_no_eviction.1 sampleOver rInfo (defaultFormat rInfo) rfl,
   C9_append_only_no_eviction.2 sampleOver PublishResult.fail []⟩

/-- C10: when no formatter is configured (`formatter` is `None`),
`format` falls back to the module-level `_default_formatter` and returns
the default-formatted line for every record; a configured formatter, when
present, is always used instead of the default. -/
theorem C10_format_default_fallback :
    (∀ (h : MqttHandler) (r : LogRecord), h.formatter = none →
      h.format r = .ok (defaultFormat r))
    ∧ (∀ (h : MqttHandler) (r : LogRecord) (f : Formatter),
      h.formatter = some f → h.format r = f r) := by
  constructor
  · intro h r hf
    simp [MqttHandler.format, hf]
  · intro h r f hf
    simp [MqttHandler.format, hf]

/-- Witness for C10: the fresh handler (no formatter) formats with the
default; the handler with a configured formatter uses that formatter. -/
theorem C10_format_default_fallback_witness :
    sampleHandler.format rInfo = Except.ok (defaultFormat rInfo)
    ∧ sampleBadFmt.format rInfo = failingFormatter rInfo :=
  ⟨C10_format_default_fallback.1 sampleHandler rInfo rfl,
   C10_format_default_fallback.2 sampleBadFmt rInfo failingFormatter rfl⟩

end Mqlog
